import Mathlib

/-!
Shallow embedding of the reactor-based streaming engine of
`src/cpp/route_guide/route_guide_callback.cpp` (the RouteGuide callback
server and client), together with theorems checking the natural-language
specification against it.

Machine integers of the C++ source (`long`, `int`) are modelled as `Int`;
the C `float` accumulator of `Recorder::distance_` is modelled as `ℚ` with
the geodesic distance function (`GetDistance`, excluded floating-point
math) kept as an abstract parameter.  Reactor callbacks become explicit
state-passing functions; the transport is modelled as a stream of
completion events delivered to the reactor, and every operation-initiating
primitive (`StartRead`, `StartWrite`, `Finish`, holds) is recorded in a
trace.  Operation-initiating primitives return `Option`: `none` models the
contract violation of arming a second same-direction operation or of
operating after `Finish`.
-/

namespace RouteGuide

/-- `routeguide::Point`: a latitude/longitude pair (protobuf integers). -/
structure Point where
  latitude : Int
  longitude : Int
deriving DecidableEq, Repr

/-- `routeguide::Feature`: a named point. -/
structure Feature where
  name : String
  location : Point
deriving DecidableEq, Repr

/-- `routeguide::RouteNote`: a chat message attached to a location. -/
structure RouteNote where
  message : String
  location : Point
deriving DecidableEq, Repr

/-- `routeguide::Rectangle`: two opposite corners, in arbitrary order. -/
structure Rectangle where
  lo : Point
  hi : Point
deriving DecidableEq, Repr

/-- `grpc::Status`, restricted to what the embedded code produces or
stores: `ok` (`grpc::Status::OK`) or an error with a numeric code. -/
inductive Status where
  | ok : Status
  | error : Int → Status
deriving DecidableEq, Repr

/-- `GetFeatureName` (route_guide_callback.cpp:77-87): linear scan of the
feature list, returning the name of the first feature whose location
equals the query point componentwise, and `""` when none matches. -/
def GetFeatureName (point : Point) : List Feature → String
  | [] => ""
  | f :: fs =>
    if f.location.latitude = point.latitude ∧ f.location.longitude = point.longitude then
      f.name
    else
      GetFeatureName point fs

/-- Result of the unary `GetFeature` handler: the response message and the
status passed to `Finish`. -/
structure GetFeatureResult where
  feature : Feature
  status : Status
deriving DecidableEq, Repr

/-- `RouteGuideImpl::GetFeature` (route_guide_callback.cpp:97-105): fill in
the response's name via `GetFeatureName`, copy the query point into the
response's location, and finish with `grpc::Status::OK`. -/
def GetFeature (point : Point) (feature_list : List Feature) : GetFeatureResult :=
  { feature := { name := GetFeatureName point feature_list, location := point },
    status := Status.ok }

/-- The location-equality predicate used both by the claim's "matches a
known feature" reading and by the `copy_if` lambda of `Chatter`. -/
def sameLocation (a b : Point) : Bool :=
  decide (a.latitude = b.latitude) && decide (a.longitude = b.longitude)

/-! ## Server-streaming producer (`Lister`, route_guide_callback.cpp:110-156) -/

/-- The four bounds computed in `Lister`'s constructor initializer list
(route_guide_callback.cpp:114-117). -/
structure ListerBounds where
  left : Int
  right : Int
  top : Int
  bottom : Int
deriving DecidableEq, Repr

/-- `Lister::Lister` bound computation: componentwise min/max of the two
rectangle corners, independent of which corner is "low" or "high". -/
def Lister.mkBounds (r : Rectangle) : ListerBounds :=
  { left := min r.lo.longitude r.hi.longitude,
    right := max r.lo.longitude r.hi.longitude,
    top := max r.lo.latitude r.hi.latitude,
    bottom := min r.lo.latitude r.hi.latitude }

/-- The bounding predicate tested inside `Lister::NextWrite`
(route_guide_callback.cpp:138-139). -/
def inBounds (b : ListerBounds) (f : Feature) : Bool :=
  decide (b.left ≤ f.location.longitude) && decide (f.location.longitude ≤ b.right) &&
  decide (b.bottom ≤ f.location.latitude) && decide (f.location.latitude ≤ b.top)

/-- The claim-side bounding predicate, written as in the specification:
latitude in `[min lat, max lat]` and longitude in `[min lon, max lon]`,
inclusive on both bounds. -/
def inNormalizedRect (r : Rectangle) (f : Feature) : Bool :=
  decide (min r.lo.latitude r.hi.latitude ≤ f.location.latitude) &&
  decide (f.location.latitude ≤ max r.lo.latitude r.hi.latitude) &&
  decide (min r.lo.longitude r.hi.longitude ≤ f.location.longitude) &&
  decide (f.location.longitude ≤ max r.lo.longitude r.hi.longitude)

/-- An operation issued by the `Lister` reactor. -/
inductive ListerOp where
  | startWrite : Feature → ListerOp
  | finish : Status → ListerOp
deriving DecidableEq, Repr

/-- `Lister::NextWrite` (route_guide_callback.cpp:132-147): advance the
iterator over the remaining features until a bounds match is found and
issue `StartWrite` on it; if the iterator is exhausted, issue
`Finish(OK)`.  Returns the single operation issued together with the
remaining portion of the feature list (the iterator position after the
call). -/
def Lister.nextWrite (b : ListerBounds) : List Feature → ListerOp × List Feature
  | [] => (ListerOp.finish Status.ok, [])
  | f :: rest =>
    if inBounds b f then (ListerOp.startWrite f, rest)
    else Lister.nextWrite b rest

/-- The whole operation trace of one `Lister` call: the constructor calls
`NextWrite` once, and each `OnWriteDone` calls `NextWrite` on the
remaining features, until `Finish` is issued.  Defined by structural
recursion; `Lister.run_eq_nextWrite` below proves it satisfies exactly the
one-operation-per-reaction recurrence of `Lister.nextWrite`. -/
def Lister.run (b : ListerBounds) : List Feature → List ListerOp
  | [] => [ListerOp.finish Status.ok]
  | f :: rest =>
    if inBounds b f then ListerOp.startWrite f :: Lister.run b rest
    else Lister.run b rest

/-- The features actually written over the stream during a `Lister` run. -/
def Lister.writes (b : ListerBounds) (fs : List Feature) : List Feature :=
  (Lister.run b fs).filterMap fun op =>
    match op with
    | ListerOp.startWrite f => some f
    | ListerOp.finish _ => none

/-! ### `Lister` read/write/finish flag discipline

The flag machine records only what the claims about operation sequencing
need: the remaining iterator portion, whether a write is outstanding, and
whether `Finish` has been requested.  Issuing an operation returns `none`
on a contract violation (second outstanding write, or any operation after
`Finish`).  The transport never delivers a completion for an operation
that is not outstanding; such an impossible delivery is modelled as a
stutter. -/

/-- Flag-level state of one `Lister` call. -/
structure ListerMState where
  remaining : List Feature
  writeOut : Bool
  finished : Bool
deriving DecidableEq, Repr

/-- Issue one `Lister` operation, checking the "at most one outstanding
write, nothing after finish" contract. -/
def ListerM.issue (s : ListerMState) : ListerOp → Option ListerMState
  | ListerOp.startWrite _ =>
      if s.writeOut || s.finished then none else some { s with writeOut := true }
  | ListerOp.finish _ =>
      if s.finished then none else some { s with finished := true }

/-- `Lister::Lister`: the constructor runs `NextWrite` once on the whole
feature list. -/
def ListerM.init (b : ListerBounds) (fs : List Feature) : Option ListerMState :=
  let r := Lister.nextWrite b fs
  ListerM.issue { remaining := r.2, writeOut := false, finished := false } r.1

/-- `Lister::OnWriteDone`: the outstanding write completed; run
`NextWrite` on the remaining features. -/
def ListerM.onWriteDone (b : ListerBounds) (s : ListerMState) : Option ListerMState :=
  let s0 := { s with writeOut := false }
  let r := Lister.nextWrite b s0.remaining
  ListerM.issue { s0 with remaining := r.2 } r.1

/-- Deliver one `OnWriteDone` completion; a completion with no
outstanding write cannot occur and stutters. -/
def ListerM.step (b : ListerBounds) (s : ListerMState) : Option ListerMState :=
  if s.writeOut then ListerM.onWriteDone b s else some s

/-- Run a `Lister` call: construct it, then deliver `n` write
completions. -/
def ListerM.run (b : ListerBounds) (fs : List Feature) : Nat → Option ListerMState
  | 0 => ListerM.init b fs
  | n + 1 => (ListerM.run b fs n).bind (ListerM.step b)

/-- Flag invariant of a `Lister` call: nothing outstanding once `Finish`
has been requested. -/
def ListerMState.inv (s : ListerMState) : Prop :=
  s.finished = true → s.writeOut = false

/-! ## Client-streaming consumer (`Recorder`, server side,
route_guide_callback.cpp:161-211) -/

/-- The member state of the server-side `Recorder` reactor.  `distance_`
is a C `float` accumulator, modelled exactly as a rational; `point_` is
the read slot the transport fills before `OnReadDone` fires. -/
structure RecorderState where
  startTime : Int
  pointCount : Int
  featureCount : Int
  distance : ℚ
  previous : Point
  point : Point
deriving DecidableEq, Repr

/-- `Recorder::Recorder` (route_guide_callback.cpp:164-168): capture the
start time; counters start at 0, `previous_`/`point_` are
default-constructed messages (all-zero coordinates). -/
def Recorder.init (startTime : Int) : RecorderState :=
  { startTime := startTime, pointCount := 0, featureCount := 0, distance := 0,
    previous := ⟨0, 0⟩, point := ⟨0, 0⟩ }

/-- `Recorder::OnReadDone(true)` (route_guide_callback.cpp:175-187): with
the read slot holding the new point `p`, increment the point count,
increment the feature count when `GetFeatureName` is nonempty, add the
distance from the previous point from the second point onward, and
remember the point as `previous_`.  The geodesic `GetDistance`
(floating-point math, excluded collaborator) is the abstract parameter
`d`. -/
def Recorder.onReadTrue (d : Point → Point → ℚ) (feature_list : List Feature)
    (s : RecorderState) (p : Point) : RecorderState :=
  let s1 := { s with point := p }
  let s2 := { s1 with pointCount := s1.pointCount + 1 }
  let s3 := if GetFeatureName s2.point feature_list ≠ "" then
      { s2 with featureCount := s2.featureCount + 1 }
    else s2
  let s4 := if s3.pointCount ≠ 1 then
      { s3 with distance := s3.distance + d s3.previous s3.point }
    else s3
  { s4 with previous := s4.point }

/-- `routeguide::RouteSummary` as populated by the `Recorder`. -/
structure RouteSummary where
  pointCount : Int
  featureCount : Int
  distance : Int
  elapsedTime : Int
deriving DecidableEq, Repr

/-- `static_cast<long>` applied to the `float` distance accumulator:
truncation toward zero. -/
def ratToLong (q : ℚ) : Int := Int.tdiv q.num q.den

/-- `Recorder::OnReadDone(false)` (route_guide_callback.cpp:189-198):
populate the summary from the accumulated counters, record the elapsed
time since construction, and finish with `grpc::Status::OK`. -/
def Recorder.onReadFalse (now : Int) (s : RecorderState) : RouteSummary × Status :=
  ({ pointCount := s.pointCount, featureCount := s.featureCount,
     distance := ratToLong s.distance, elapsedTime := now - s.startTime },
   Status.ok)

/-- Process a whole inbound stream: one `OnReadDone(true)` per point, in
order. -/
def Recorder.processAll (d : Point → Point → ℚ) (feature_list : List Feature)
    (s : RecorderState) (ps : List Point) : RecorderState :=
  ps.foldl (Recorder.onReadTrue d feature_list) s

/-- Sum of `d` over consecutive pairs of `prev :: ps`. -/
def pairwiseDistance (d : Point → Point → ℚ) : Point → List Point → ℚ
  | _, [] => 0
  | prev, p :: ps => d prev p + pairwiseDistance d p ps

/-- Sum of `d` over consecutive pairs of `ps` (the first point alone
contributes zero). -/
def routeDistance (d : Point → Point → ℚ) : List Point → ℚ
  | [] => 0
  | p :: ps => pairwiseDistance d p ps

/-- The Boolean test `!GetFeatureName(point_, *feature_list_).empty()`. -/
def matchesNamedFeature (feature_list : List Feature) (p : Point) : Bool :=
  decide (GetFeatureName p feature_list ≠ "")

/-- The claim-side predicate "the point's coordinates exactly match a
known feature": some feature of the list sits at the point. -/
def matchesKnownFeature (feature_list : List Feature) (p : Point) : Bool :=
  feature_list.any fun f => sameLocation f.location p

/-! ### `Recorder` (server) read/finish flag discipline -/

/-- Flag-level state of one server-side `Recorder` call. -/
structure RecorderMState where
  readOut : Bool
  finished : Bool
deriving DecidableEq, Repr

/-- Issue `StartRead`, checking the "at most one outstanding read,
nothing after finish" contract. -/
def RecorderM.issueRead (s : RecorderMState) : Option RecorderMState :=
  if s.readOut || s.finished then none else some { s with readOut := true }

/-- Issue `Finish`, checking it is requested at most once. -/
def RecorderM.issueFinish (s : RecorderMState) : Option RecorderMState :=
  if s.finished then none else some { s with finished := true }

/-- `Recorder::Recorder`: the constructor arms the first read. -/
def RecorderM.init : Option RecorderMState :=
  RecorderM.issueRead { readOut := false, finished := false }

/-- `Recorder::OnReadDone(ok)`: the outstanding read completed; arm the
next read on `ok = true`, request `Finish(OK)` on `ok = false`. -/
def RecorderM.onReadDone (s : RecorderMState) (ok : Bool) : Option RecorderMState :=
  let s0 := { s with readOut := false }
  if ok then RecorderM.issueRead s0 else RecorderM.issueFinish s0

/-- Deliver one read completion; a completion with no outstanding read
cannot occur and stutters. -/
def RecorderM.step (s : RecorderMState) (ok : Bool) : Option RecorderMState :=
  if s.readOut then RecorderM.onReadDone s ok else some s

/-- Run a server `Recorder` call over a list of read-completion flags. -/
def RecorderM.run (oks : List Bool) : Option RecorderMState :=
  oks.foldl (fun acc ok => acc.bind fun s => RecorderM.step s ok) RecorderM.init

/-- Flag invariant of a server `Recorder` call: nothing outstanding once
`Finish` has been requested. -/
def RecorderMState.inv (s : RecorderMState) : Prop :=
  s.finished = true → s.readOut = false

/-! ## Bidirectional chat responder (`Chatter`,
route_guide_callback.cpp:217-283)

The shared note log (`received_notes_`, guarded by `mu_`) is carried in
the state alongside the per-call members `note_`, `to_send_notes_` and
`notes_iterator_` (modelled as an index into `to_send_notes_`). -/

/-- An operation issued by the `Chatter` reactor. -/
inductive ChatterOp where
  | startRead : ChatterOp
  | startWrite : RouteNote → ChatterOp
  | finish : Status → ChatterOp
deriving DecidableEq, Repr

/-- State of one `Chatter` call plus the shared note log. -/
structure ChatterState where
  note : RouteNote
  toSendNotes : List RouteNote
  iter : Nat
  log : List RouteNote
  readOut : Bool
  writeOut : Bool
  finished : Bool
deriving DecidableEq, Repr

/-- Issue `StartRead` on a `Chatter` call, checking the contract. -/
def ChatterState.issueRead (s : ChatterState) : Option ChatterState :=
  if s.readOut || s.finished then none else some { s with readOut := true }

/-- Issue `StartWrite` on a `Chatter` call, checking the contract. -/
def ChatterState.issueWrite (s : ChatterState) : Option ChatterState :=
  if s.writeOut || s.finished then none else some { s with writeOut := true }

/-- Issue `Finish` on a `Chatter` call, checking it happens once. -/
def ChatterState.issueFinish (s : ChatterState) : Option ChatterState :=
  if s.finished then none else some { s with finished := true }

/-- `Chatter::NextWrite` (route_guide_callback.cpp:261-275): if the
iterator has not reached the end of `to_send_notes_`, `StartWrite` the
current note and advance; otherwise append the inbound note to the shared
log (under the lock) and arm the next read. -/
def Chatter.nextWrite (s : ChatterState) : Option (ChatterState × List ChatterOp) :=
  if h : s.iter < s.toSendNotes.length then
    (ChatterState.issueWrite { s with iter := s.iter + 1 }).map
      fun s' => (s', [ChatterOp.startWrite (s.toSendNotes.get ⟨s.iter, h⟩)])
  else
    (ChatterState.issueRead { s with log := s.log ++ [s.note] }).map
      fun s' => (s', [ChatterOp.startRead])

/-- `Chatter::OnReadDone` (route_guide_callback.cpp:229-254): on
`ok = true` the read slot `note_` holds the inbound note; under the lock,
`copy_if` appends to `to_send_notes_` every log entry whose location
equals the inbound note's, the iterator is reset to the *beginning* of
`to_send_notes_`, and `NextWrite` runs.  On `ok = false`, `Finish(OK)`. -/
def Chatter.onReadDone (s : ChatterState) (ok : Bool) (inbound : RouteNote) :
    Option (ChatterState × List ChatterOp) :=
  let s0 := { s with readOut := false }
  if ok then
    let s1 := { s0 with note := inbound }
    let matched := s1.log.filter (fun n => sameLocation n.location s1.note.location)
    let s2 := { s1 with toSendNotes := s1.toSendNotes ++ matched }
    let s3 := { s2 with iter := 0 }
    Chatter.nextWrite s3
  else
    (ChatterState.issueFinish s0).map fun s' => (s', [ChatterOp.finish Status.ok])

/-- `Chatter::OnWriteDone` (route_guide_callback.cpp:255-258): the
outstanding write completed; run `NextWrite`. -/
def Chatter.onWriteDone (s : ChatterState) : Option (ChatterState × List ChatterOp) :=
  Chatter.nextWrite { s with writeOut := false }

/-- A completion event the transport delivers to a `Chatter` call.  A
read completion carries the inbound note the transport stored in the read
slot. -/
inductive ChatterEv where
  | readDone : Bool → RouteNote → ChatterEv
  | writeDone : ChatterEv
deriving DecidableEq, Repr

/-- Deliver one completion event; a completion for an operation that is
not outstanding cannot occur and stutters. -/
def Chatter.deliver (s : ChatterState) : ChatterEv → Option (ChatterState × List ChatterOp)
  | ChatterEv.readDone ok n =>
      if s.readOut then Chatter.onReadDone s ok n else some (s, [])
  | ChatterEv.writeDone =>
      if s.writeOut then Chatter.onWriteDone s else some (s, [])

/-- A fresh `Chatter` member state over a shared log `L`: empty send
queue, default-constructed `note_`, no operation outstanding. -/
def Chatter.start (L : List RouteNote) : ChatterState :=
  { note := ⟨"", ⟨0, 0⟩⟩, toSendNotes := [], iter := 0, log := L,
    readOut := false, writeOut := false, finished := false }

/-- `Chatter::Chatter` (route_guide_callback.cpp:220-224): the
constructor arms the first read. -/
def Chatter.init (L : List RouteNote) : Option (ChatterState × List ChatterOp) :=
  (ChatterState.issueRead (Chatter.start L)).map fun s => (s, [ChatterOp.startRead])

/-- Deliver a list of completion events from a given state, accumulating
the operation trace. -/
def Chatter.runFrom (s : ChatterState) : List ChatterEv → Option (ChatterState × List ChatterOp)
  | [] => some (s, [])
  | ev :: evs =>
    (Chatter.deliver s ev).bind fun p =>
      (Chatter.runFrom p.1 evs).map fun q => (q.1, p.2 ++ q.2)

/-- Run one `Chatter` call from construction over a shared log `L`. -/
def Chatter.run (L : List RouteNote) (evs : List ChatterEv) :
    Option (ChatterState × List ChatterOp) :=
  (Chatter.init L).bind fun p =>
    (Chatter.runFrom p.1 evs).map fun q => (q.1, p.2 ++ q.2)

/-- The notes written in a `Chatter` operation trace. -/
def chatterWrites (ops : List ChatterOp) : List RouteNote :=
  ops.filterMap fun op =>
    match op with
    | ChatterOp.startWrite n => some n
    | _ => none

/-- The flag invariant of a `Chatter` call: reads and writes of this
server reactor never overlap, and nothing is outstanding once `Finish`
has been requested. -/
def ChatterState.flagsInv (s : ChatterState) : Prop :=
  ¬(s.readOut = true ∧ s.writeOut = true) ∧
  (s.finished = true → s.readOut = false ∧ s.writeOut = false)

/-! ### Lock discipline of `Chatter` (shared note log)

Each reaction body of `Chatter` is abstracted to its sequence of
lock/unlock operations, shared-log accesses and operation-initiating
calls, read off route_guide_callback.cpp:229-275.  `hasMore` tells
whether `notes_iterator_ != to_send_notes_.end()` at the `NextWrite`. -/

/-- One primitive action of a `Chatter` reaction body. -/
inductive LockAction where
  | lock : LockAction
  | unlock : LockAction
  | readLog : LockAction
  | appendLog : LockAction
  | startWriteCall : LockAction
  | startReadCall : LockAction
  | finishCall : LockAction
deriving DecidableEq, Repr

/-- Action sequence of `Chatter::NextWrite`: either a bare `StartWrite`,
or lock, append the inbound note, unlock, then `StartRead`. -/
def Chatter.nextWriteActions (hasMore : Bool) : List LockAction :=
  if hasMore then [LockAction.startWriteCall]
  else [LockAction.lock, LockAction.appendLog, LockAction.unlock, LockAction.startReadCall]

/-- Action sequence of `Chatter::OnReadDone`: on `ok`, lock, snapshot-copy
the log, unlock, then the `NextWrite` actions; otherwise `Finish`. -/
def Chatter.onReadDoneActions (ok : Bool) (hasMore : Bool) : List LockAction :=
  if ok then
    [LockAction.lock, LockAction.readLog, LockAction.unlock] ++
      Chatter.nextWriteActions hasMore
  else [LockAction.finishCall]

/-- Action sequence of `Chatter::OnWriteDone`: just `NextWrite`. -/
def Chatter.onWriteDoneActions (hasMore : Bool) : List LockAction :=
  Chatter.nextWriteActions hasMore

/-- Scan an action sequence keeping the lock depth: locks balance out,
`StartRead`/`StartWrite`/`Finish` are invoked only with the lock free,
and the shared log is touched only with the lock held. -/
def lockDisciplineOK : Nat → List LockAction → Bool
  | depth, [] => decide (depth = 0)
  | depth, a :: rest =>
    match a with
    | LockAction.lock => lockDisciplineOK (depth + 1) rest
    | LockAction.unlock => decide (0 < depth) && lockDisciplineOK (depth - 1) rest
    | LockAction.readLog => decide (0 < depth) && lockDisciplineOK depth rest
    | LockAction.appendLog => decide (0 < depth) && lockDisciplineOK depth rest
    | LockAction.startWriteCall => decide (depth = 0) && lockDisciplineOK depth rest
    | LockAction.startReadCall => decide (depth = 0) && lockDisciplineOK depth rest
    | LockAction.finishCall => decide (depth = 0) && lockDisciplineOK depth rest

/-! ## Client-streaming initiator (`Recorder`, client side,
route_guide_callback.cpp:419-489)

The alarm-deferred `NextWrite` of `OnWriteDone` is collapsed to the
eventual `NextWrite` call; the random feature draw
`(*feature_list_)[feature_distribution_(generator_)].location()` is the
abstract parameter `pick`, indexed by the value of `points_remaining_`
at the draw. -/

/-- An operation issued by the client-side `Recorder`. -/
inductive ClientRecOp where
  | addHold : ClientRecOp
  | removeHold : ClientRecOp
  | startCall : ClientRecOp
  | startWritesDone : ClientRecOp
  | startWrite : Point → ClientRecOp
deriving DecidableEq, Repr

/-- State of the client-side `Recorder`: the write countdown and the
hold count. -/
structure ClientRecState where
  pointsRemaining : Nat
  holds : Int
deriving DecidableEq, Repr

/-- `Recorder::NextWrite` (client, route_guide_callback.cpp:459-474):
while `points_remaining_ != 0`, `StartWrite` a drawn location and
decrement; once exhausted, `StartWritesDone` then `RemoveHold`. -/
def ClientRec.nextWrite (pick : Nat → Point) (s : ClientRecState) :
    ClientRecState × List ClientRecOp :=
  if s.pointsRemaining ≠ 0 then
    ({ s with pointsRemaining := s.pointsRemaining - 1 },
     [ClientRecOp.startWrite (pick s.pointsRemaining)])
  else
    ({ s with holds := s.holds - 1 },
     [ClientRecOp.startWritesDone, ClientRecOp.removeHold])

/-- `Recorder::Recorder` (client, route_guide_callback.cpp:422-435):
`points_remaining_` starts at 10; the constructor does `AddHold()`, then
`NextWrite()`, then `StartCall()`. -/
def ClientRec.init (pick : Nat → Point) : ClientRecState × List ClientRecOp :=
  let s0 : ClientRecState := { pointsRemaining := 10, holds := 0 }
  let s1 := { s0 with holds := s0.holds + 1 }
  let r := ClientRec.nextWrite pick s1
  (r.1, ClientRecOp.addHold :: r.2 ++ [ClientRecOp.startCall])

/-- `Recorder::OnWriteDone` (client, route_guide_callback.cpp:436-442):
the alarm eventually re-enters `NextWrite`. -/
def ClientRec.onWriteDone (pick : Nat → Point) (s : ClientRecState) :
    ClientRecState × List ClientRecOp :=
  ClientRec.nextWrite pick s

/-- Run the client `Recorder`: construct it, then deliver `n` write
completions, accumulating the operation trace. -/
def ClientRec.run (pick : Nat → Point) : Nat → ClientRecState × List ClientRecOp
  | 0 => ClientRec.init pick
  | n + 1 =>
    match ClientRec.run pick n with
    | (s, tr) =>
      match ClientRec.onWriteDone pick s with
      | (s', ops) => (s', tr ++ ops)

/-- Contribution of one operation to the hold count. -/
def holdDelta : ClientRecOp → Int
  | ClientRecOp.addHold => 1
  | ClientRecOp.removeHold => -1
  | _ => 0

/-- Hold count after a trace of operations. -/
def holdCount (tr : List ClientRecOp) : Int := (tr.map holdDelta).sum

/-- Whether an operation is `AddHold`. -/
def isAddHold : ClientRecOp → Bool
  | ClientRecOp.addHold => true
  | _ => false

/-- Whether an operation is `RemoveHold`. -/
def isRemoveHold : ClientRecOp → Bool
  | ClientRecOp.removeHold => true
  | _ => false

/-- Modelled from the spec: the Hold Counter of §4.2 together with the
transport's terminal-completion rule (implemented inside the excluded RPC
library, not under src/): `OnDone` may fire only when the transport-level
completion condition is met **and** the hold count is zero. -/
def onDoneAllowed (transportComplete : Bool) (holds : Int) : Bool :=
  transportComplete && decide (holds = 0)

/-! ## Synchronous facade (client-side `Await`/`OnDone`,
route_guide_callback.cpp:443-456) -/

/-- The mutex-guarded completion state of the client facade: the `done_`
flag, the captured terminal status, and (for the client-streaming call)
the accumulated summary record `stats_`. -/
structure FacadeState where
  done : Bool
  status : Status
  stats : RouteSummary
deriving DecidableEq, Repr

/-- `Recorder::OnDone` (client, route_guide_callback.cpp:443-449): under
the mutex, capture the terminal status and set the completion flag (then
signal the condition variable). -/
def Facade.onDone (s : Status) (f : FacadeState) : FacadeState :=
  { f with status := s, done := true }

/-- `Recorder::Await` (client, route_guide_callback.cpp:450-456): block
until `done_`; only then copy out the summary record and return the
captured status.  `none` models "still blocked": nothing is returned (and
nothing is copied) before the flag is set. -/
def Facade.await (f : FacadeState) : Option (Status × RouteSummary) :=
  if f.done then some (f.status, f.stats) else none

/-! # Theorems -/

theorem Lister.run_eq_nextWrite (b : ListerBounds) (fs : List Feature) :
    Lister.run b fs =
      match Lister.nextWrite b fs with
      | (ListerOp.finish s, _) => [ListerOp.finish s]
      | (ListerOp.startWrite f, rest) => ListerOp.startWrite f :: Lister.run b rest := by
  induction fs with
  | nil => simp [Lister.run, Lister.nextWrite]
  | cons f rest ih =>
    by_cases h : inBounds b f = true
    · simp [Lister.run, Lister.nextWrite, h]
    · simp only [Bool.not_eq_true] at h
      simp [Lister.run, Lister.nextWrite, h]
      exact ih

theorem Lister.run_eq_filter (b : ListerBounds) (fs : List Feature) :
    Lister.run b fs =
      (fs.filter (inBounds b)).map ListerOp.startWrite ++ [ListerOp.finish Status.ok] := by
  induction fs with
  | nil => simp [Lister.run]
  | cons f rest ih =>
    by_cases h : inBounds b f = true
    · simp [Lister.run, List.filter, h, ih]
    · simp only [Bool.not_eq_true] at h
      simp [Lister.run, List.filter, h, ih]

theorem Lister.writes_eq_filter (b : ListerBounds) (fs : List Feature) :
    Lister.writes b fs = fs.filter (inBounds b) := by
  rw [Lister.writes, Lister.run_eq_filter]
  induction fs with
  | nil => simp
  | cons f rest ih =>
    by_cases h : inBounds b f = true
    · simpa [List.filter, h] using ih
    · simp only [Bool.not_eq_true] at h
      simpa [List.filter, h] using ih

/-- `GetFeatureName` returns the name of the *first* location-matching
feature, and `""` when no feature matches. -/
theorem GetFeatureName_eq_find (point : Point) (fs : List Feature) :
    GetFeatureName point fs =
      ((fs.find? fun f =>
          decide (f.location.latitude = point.latitude) &&
          decide (f.location.longitude = point.longitude)).map Feature.name).getD "" := by
  induction fs with
  | nil => simp [GetFeatureName]
  | cons f rest ih =>
    by_cases h : f.location.latitude = point.latitude ∧ f.location.longitude = point.longitude
    · simp [GetFeatureName, List.find?, h.1, h.2]
    · rw [GetFeatureName, if_neg h]
      rw [List.find?]
      have : (decide (f.location.latitude = point.latitude) &&
          decide (f.location.longitude = point.longitude)) = false := by
        rcases Decidable.not_and_iff_or_not.mp h with h1 | h1 <;> simp [h1]
      rw [this]
      exact ih

theorem ListerM.issue_some (rem : List Feature) (op : ListerOp) :
    ∃ s', ListerM.issue ⟨rem, false, false⟩ op = some s' ∧ s'.inv := by
  cases op with
  | startWrite f =>
    refine ⟨⟨rem, true, false⟩, ?_, ?_⟩
    · simp [ListerM.issue]
    · simp [ListerMState.inv]
  | finish st =>
    refine ⟨⟨rem, false, true⟩, ?_, ?_⟩
    · simp [ListerM.issue]
    · simp [ListerMState.inv]

theorem lister_run_isSome (b : ListerBounds) (fs : List Feature) (n : Nat) :
    ∃ s, ListerM.run b fs n = some s ∧ s.inv := by
  induction n with
  | zero =>
    obtain ⟨s', h1, h2⟩ := ListerM.issue_some (Lister.nextWrite b fs).2 (Lister.nextWrite b fs).1
    exact ⟨s', h1, h2⟩
  | succ n ih =>
    obtain ⟨s, hs, hinv⟩ := ih
    rw [ListerM.run, hs, Option.some_bind]
    by_cases hw : s.writeOut = true
    · have hf : s.finished = false := by
        rcases hfin : s.finished with _ | _
        · rfl
        · exact absurd (hinv hfin) (by simp [hw])
      obtain ⟨rem, wo, fin⟩ := s
      simp only at hw hf
      subst hw hf
      rw [ListerM.step]
      simp only [if_true]
      rw [ListerM.onWriteDone]
      exact ListerM.issue_some _ _
    · simp only [Bool.not_eq_true] at hw
      rw [ListerM.step, hw]
      exact ⟨s, by simp, hinv⟩

theorem RecorderM.step_some (s : RecorderMState) (ok : Bool) (hinv : s.inv) :
    ∃ s', RecorderM.step s ok = some s' ∧ s'.inv := by
  by_cases hr : s.readOut = true
  · have hf : s.finished = false := by
      rcases hfin : s.finished with _ | _
      · rfl
      · exact absurd (hinv hfin) (by simp [hr])
    obtain ⟨ro, fin⟩ := s
    simp only at hr hf
    subst hr hf
    rw [RecorderM.step]
    simp only [if_true]
    cases ok with
    | true =>
      exact ⟨⟨true, false⟩, by simp [RecorderM.onReadDone, RecorderM.issueRead],
        by simp [RecorderMState.inv]⟩
    | false =>
      exact ⟨⟨false, true⟩, by simp [RecorderM.onReadDone, RecorderM.issueFinish],
        by simp [RecorderMState.inv]⟩
  · simp only [Bool.not_eq_true] at hr
    rw [RecorderM.step, hr]
    exact ⟨s, by simp, hinv⟩

theorem recorder_foldSteps_isSome (oks : List Bool) :
    ∀ s : RecorderMState, s.inv →
      ∃ s', oks.foldl (fun acc ok => acc.bind fun t => RecorderM.step t ok) (some s) = some s' ∧
        s'.inv := by
  induction oks with
  | nil => exact fun s hs => ⟨s, rfl, hs⟩
  | cons ok rest ih =>
    intro s hs
    obtain ⟨s', h1, h2⟩ := RecorderM.step_some s ok hs
    rw [List.foldl_cons, Option.some_bind, h1]
    exact ih s' h2

theorem recorder_run_isSome (oks : List Bool) :
    ∃ s, RecorderM.run oks = some s ∧ s.inv := by
  have hinit : RecorderM.init = some ⟨true, false⟩ := by
    simp [RecorderM.init, RecorderM.issueRead]
  rw [RecorderM.run, hinit]
  exact recorder_foldSteps_isSome oks ⟨true, false⟩ (by simp [RecorderMState.inv])

theorem Chatter.nextWrite_some (s : ChatterState)
    (hr : s.readOut = false) (hw : s.writeOut = false) (hf : s.finished = false) :
    ∃ s' ops, Chatter.nextWrite s = some (s', ops) ∧ ChatterState.flagsInv s' := by
  rw [Chatter.nextWrite]
  by_cases hi : s.iter < s.toSendNotes.length
  · rw [dif_pos hi]
    refine ⟨{ s with iter := s.iter + 1, writeOut := true },
      [ChatterOp.startWrite (s.toSendNotes.get ⟨s.iter, hi⟩)], ?_, ?_⟩
    · rw [ChatterState.issueWrite]
      simp [hw, hf]
    · simp [ChatterState.flagsInv, hr, hf]
  · rw [dif_neg hi]
    refine ⟨{ s with log := s.log ++ [s.note], readOut := true },
      [ChatterOp.startRead], ?_, ?_⟩
    · rw [ChatterState.issueRead]
      simp [hr, hf]
    · simp [ChatterState.flagsInv, hw, hf]

theorem Chatter.deliver_some (s : ChatterState) (hinv : ChatterState.flagsInv s)
    (ev : ChatterEv) :
    ∃ s' ops, Chatter.deliver s ev = some (s', ops) ∧ ChatterState.flagsInv s' := by
  obtain ⟨hnotboth, hfin⟩ := hinv
  cases ev with
  | readDone ok n =>
    by_cases hr : s.readOut = true
    · have hw : s.writeOut = false := by
        rcases hwo : s.writeOut with _ | _
        · rfl
        · exact absurd ⟨hr, hwo⟩ hnotboth
      have hf : s.finished = false := by
        rcases hfo : s.finished with _ | _
        · rfl
        · exact absurd (hfin hfo).1 (by simp [hr])
      rw [Chatter.deliver, if_pos hr, Chatter.onReadDone]
      cases ok with
      | true =>
        simp only [if_true]
        exact Chatter.nextWrite_some _ (by simp) (by simp [hw]) (by simp [hf])
      | false =>
        simp only [Bool.false_eq_true, if_false]
        refine ⟨{ s with readOut := false, finished := true },
          [ChatterOp.finish Status.ok], ?_, ?_⟩
        · rw [ChatterState.issueFinish]
          simp [hf]
        · simp [ChatterState.flagsInv, hw]
    · simp only [Bool.not_eq_true] at hr
      rw [Chatter.deliver, hr]
      exact ⟨s, [], by simp, hnotboth, hfin⟩
  | writeDone =>
    by_cases hw : s.writeOut = true
    · have hr : s.readOut = false := by
        rcases hro : s.readOut with _ | _
        · rfl
        · exact absurd ⟨hro, hw⟩ hnotboth
      have hf : s.finished = false := by
        rcases hfo : s.finished with _ | _
        · rfl
        · exact absurd (hfin hfo).2 (by simp [hw])
      rw [Chatter.deliver, if_pos hw, Chatter.onWriteDone]
      exact Chatter.nextWrite_some _ (by simp [hr]) (by simp) (by simp [hf])
    · simp only [Bool.not_eq_true] at hw
      rw [Chatter.deliver, hw]
      exact ⟨s, [], by simp, hnotboth, hfin⟩

theorem chatter_runFrom_isSome (evs : List ChatterEv) :
    ∀ s : ChatterState, ChatterState.flagsInv s →
      ∃ s' ops, Chatter.runFrom s evs = some (s', ops) ∧ ChatterState.flagsInv s' := by
  induction evs with
  | nil => exact fun s hs => ⟨s, [], rfl, hs⟩
  | cons ev rest ih =>
    intro s hs
    obtain ⟨s', ops, h1, h2⟩ := Chatter.deliver_some s hs ev
    obtain ⟨s'', ops', h3, h4⟩ := ih s' h2
    rw [Chatter.runFrom, h1, Option.some_bind, h3]
    exact ⟨s'', ops ++ ops', rfl, h4⟩

theorem Chatter.init_eq (L : List RouteNote) :
    Chatter.init L = some ({ Chatter.start L with readOut := true }, [ChatterOp.startRead]) := by
  simp [Chatter.init, ChatterState.issueRead, Chatter.start]

theorem chatter_run_isSome (L : List RouteNote) (evs : List ChatterEv) :
    ∃ s ops, Chatter.run L evs = some (s, ops) := by
  rw [Chatter.run, Chatter.init_eq, Option.some_bind]
  obtain ⟨s', ops, h1, _⟩ := chatter_runFrom_isSome evs { Chatter.start L with readOut := true }
    (by simp [ChatterState.flagsInv, Chatter.start])
  rw [h1]
  exact ⟨s', ChatterOp.startRead :: ops, rfl⟩

theorem Recorder.processAll_steady (d : Point → Point → ℚ) (fl : List Feature)
    (ps : List Point) :
    ∀ s : RecorderState, 1 ≤ s.pointCount →
      Recorder.processAll d fl s ps =
        { startTime := s.startTime,
          pointCount := s.pointCount + ps.length,
          featureCount := s.featureCount + (ps.countP (matchesNamedFeature fl) : Int),
          distance := s.distance + pairwiseDistance d s.previous ps,
          previous := ps.getLastD s.previous,
          point := ps.getLastD s.point } := by
  induction ps with
  | nil =>
    intro s hs
    simp [Recorder.processAll, List.getLastD, pairwiseDistance]
  | cons p rest ih =>
    intro s hs
    have hstep : Recorder.onReadTrue d fl s p =
        { startTime := s.startTime,
          pointCount := s.pointCount + 1,
          featureCount :=
            s.featureCount + (if matchesNamedFeature fl p then 1 else 0),
          distance := s.distance + d s.previous p,
          previous := p, point := p } := by
      unfold Recorder.onReadTrue
      have hne : ¬ s.pointCount + 1 = 1 := by omega
      by_cases hm : GetFeatureName p fl ≠ ""
      · simp [matchesNamedFeature, hm, hne]
      · simp [matchesNamedFeature, hm, hne]
    have h1 : Recorder.processAll d fl s (p :: rest) =
        Recorder.processAll d fl (Recorder.onReadTrue d fl s p) rest := rfl
    rw [h1, hstep, ih _ (by simp; omega)]
    simp only [RecorderState.mk.injEq, List.length_cons, List.countP_cons,
      pairwiseDistance, List.getLastD_cons]
    refine ⟨by trivial, by push_cast; ring, ?_, by ring, by trivial, by trivial⟩
    by_cases hm : matchesNamedFeature fl p = true
    · simp only [hm, if_true]
      push_cast
      ring
    · simp only [hm, if_false]
      push_cast
      ring

theorem Recorder.processAll_init (d : Point → Point → ℚ) (fl : List Feature)
    (t : Int) (ps : List Point) :
    (Recorder.processAll d fl (Recorder.init t) ps).startTime = t ∧
    (Recorder.processAll d fl (Recorder.init t) ps).pointCount = (ps.length : Int) ∧
    (Recorder.processAll d fl (Recorder.init t) ps).featureCount =
      (ps.countP (matchesNamedFeature fl) : Int) ∧
    (Recorder.processAll d fl (Recorder.init t) ps).distance = routeDistance d ps := by
  cases ps with
  | nil =>
    simp [Recorder.processAll, Recorder.init, routeDistance]
  | cons p rest =>
    have hfirst : Recorder.onReadTrue d fl (Recorder.init t) p =
        { startTime := t, pointCount := 1,
          featureCount := if matchesNamedFeature fl p then 1 else 0,
          distance := 0, previous := p, point := p } := by
      unfold Recorder.onReadTrue Recorder.init
      by_cases hm : GetFeatureName p fl ≠ ""
      · simp [matchesNamedFeature, hm]
      · simp [matchesNamedFeature, hm]
    have h1 : Recorder.processAll d fl (Recorder.init t) (p :: rest) =
        Recorder.processAll d fl (Recorder.onReadTrue d fl (Recorder.init t) p) rest := rfl
    rw [h1, hfirst, Recorder.processAll_steady d fl rest _ (by simp)]
    simp [List.countP_cons, routeDistance]
    constructor
    · omega
    · by_cases hm : matchesNamedFeature fl p = true
      all_goals simp [hm]
      all_goals omega

theorem Lister.nextWrite_fst (b : ListerBounds) (fs : List Feature) :
    (Lister.nextWrite b fs).1 =
      match fs.filter (inBounds b) with
      | [] => ListerOp.finish Status.ok
      | f :: _ => ListerOp.startWrite f := by
  induction fs with
  | nil => simp [Lister.nextWrite]
  | cons f rest ih =>
    by_cases h : inBounds b f = true
    · simp [Lister.nextWrite, List.filter, h]
    · simp only [Bool.not_eq_true] at h
      simp [Lister.nextWrite, List.filter, h, ih]

/-- The constructor's bounds plus the `NextWrite` comparisons implement
exactly the claim-side normalized-rectangle predicate. -/
theorem inBounds_mkBounds_eq (r : Rectangle) (f : Feature) :
    inBounds (Lister.mkBounds r) f = inNormalizedRect r f := by
  rw [inBounds, inNormalizedRect, Lister.mkBounds]
  by_cases h1 : min r.lo.longitude r.hi.longitude ≤ f.location.longitude <;>
    by_cases h2 : f.location.longitude ≤ max r.lo.longitude r.hi.longitude <;>
      by_cases h3 : min r.lo.latitude r.hi.latitude ≤ f.location.latitude <;>
        by_cases h4 : f.location.latitude ≤ max r.lo.latitude r.hi.latitude <;>
          simp [h1, h2, h3, h4]

theorem mkBounds_swap (r : Rectangle) :
    Lister.mkBounds ⟨r.hi, r.lo⟩ = Lister.mkBounds r := by
  simp [Lister.mkBounds, min_comm, max_comm]

/-! ## Claim theorems -/

/-- C2: for every rectangle (corners in arbitrary relative order) and
every feature list, the server-streaming filter writes exactly the
features with latitude in `[min, max]` and longitude in `[min, max]`,
inclusive on both bounds, and swapping the two corners yields an
identical result sequence. -/
theorem claim_C2_lister_filter_normalized (r : Rectangle) (fs : List Feature) :
    Lister.writes (Lister.mkBounds r) fs = fs.filter (inNormalizedRect r) ∧
    Lister.writes (Lister.mkBounds ⟨r.hi, r.lo⟩) fs = Lister.writes (Lister.mkBounds r) fs := by
  constructor
  · rw [Lister.writes_eq_filter]
    exact List.filter_congr fun f _ => inBounds_mkBounds_eq r f
  · rw [mkBounds_swap]

/-- C4: when no feature satisfies the bounding predicate (including the
empty feature list), the `Lister` issues no `StartWrite` at all: the
whole operation trace is the single `Finish(OK)`, already issued by the
constructor's `NextWrite`.  An empty result set is terminal success. -/
theorem claim_C4_empty_result_immediate_finish (r : Rectangle) (fs : List Feature)
    (h : fs.filter (inNormalizedRect r) = []) :
    Lister.run (Lister.mkBounds r) fs = [ListerOp.finish Status.ok] ∧
    Lister.writes (Lister.mkBounds r) fs = [] ∧
    (Lister.nextWrite (Lister.mkBounds r) fs).1 = ListerOp.finish Status.ok := by
  have hb : fs.filter (inBounds (Lister.mkBounds r)) = [] := by
    rw [List.filter_congr fun f _ => inBounds_mkBounds_eq r f]
    exact h
  refine ⟨?_, ?_, ?_⟩
  · rw [Lister.run_eq_filter, hb]
    rfl
  · rw [Lister.writes_eq_filter, hb]
  · rw [Lister.nextWrite_fst, hb]

/-- Witness for C4 at a concrete rectangle and a concrete non-matching
feature list. -/
theorem claim_C4_witness :
    Lister.run (Lister.mkBounds ⟨⟨0, 0⟩, ⟨1, 1⟩⟩) [Feature.mk "X" ⟨5, 5⟩] =
      [ListerOp.finish Status.ok] :=
  (claim_C4_empty_result_immediate_finish ⟨⟨0, 0⟩, ⟨1, 1⟩⟩ [Feature.mk "X" ⟨5, 5⟩]
    (by decide)).1

/-- C5: on every reactor of the callback server (`Lister`, `Recorder`,
`Chatter`), for any schedule of transport completions, no operation is
ever armed while a same-direction operation is outstanding and nothing is
armed after `Finish` is requested: the checked runs (where such a
contract violation yields `none`) always succeed. -/
theorem claim_C5_one_outstanding_per_direction :
    (∀ (b : ListerBounds) (fs : List Feature) (n : Nat),
        (ListerM.run b fs n).isSome = true) ∧
    (∀ oks : List Bool, (RecorderM.run oks).isSome = true) ∧
    (∀ (L : List RouteNote) (evs : List ChatterEv),
        (Chatter.run L evs).isSome = true) := by
  refine ⟨fun b fs n => ?_, fun oks => ?_, fun L evs => ?_⟩
  · obtain ⟨s, h, _⟩ := lister_run_isSome b fs n
    simp [h]
  · obtain ⟨s, h, _⟩ := recorder_run_isSome oks
    simp [h]
  · obtain ⟨s, ops, h⟩ := chatter_run_isSome L evs
    simp [h]

/-- C7: in every `Chatter` reaction body, the shared-log mutex is
released before any `StartRead`/`StartWrite`/`Finish` call, lock/unlock
pairs balance, and every access to the shared note vector happens with
the lock held (inside the snapshot-copy or the append critical
section). -/
theorem claim_C7_lock_discipline :
    ∀ ok hasMore : Bool,
      lockDisciplineOK 0 (Chatter.onReadDoneActions ok hasMore) = true ∧
      lockDisciplineOK 0 (Chatter.onWriteDoneActions hasMore) = true := by
  decide

/-- C8: each factory method hands the transport a reactor whose
constructor has already issued the call's first operation: the `Lister`
constructor issues `StartWrite` of the first bounds-matching feature (or
`Finish(OK)` when none matches), and the `Recorder` and `Chatter`
constructors arm the first read. -/
theorem claim_C8_constructor_arms_first_op (r : Rectangle) (fs : List Feature)
    (L : List RouteNote) :
    ((Lister.nextWrite (Lister.mkBounds r) fs).1 =
      match fs.filter (inNormalizedRect r) with
      | [] => ListerOp.finish Status.ok
      | f :: _ => ListerOp.startWrite f) ∧
    RecorderM.init = some ⟨true, false⟩ ∧
    Chatter.init L =
      some ({ Chatter.start L with readOut := true }, [ChatterOp.startRead]) := by
  refine ⟨?_, by simp [RecorderM.init, RecorderM.issueRead], Chatter.init_eq L⟩
  rw [Lister.nextWrite_fst, List.filter_congr fun f _ => inBounds_mkBounds_eq r f]

/-- C10: the unary `GetFeature` handler always finishes `OK`, echoes the
query point as the response location, and sets the response name to the
name of the first feature at that exact location — the empty string when
none matches, never an error status. -/
theorem claim_C10_get_feature_ok (p : Point) (fl : List Feature) :
    (GetFeature p fl).status = Status.ok ∧
    (GetFeature p fl).feature.location = p ∧
    (GetFeature p fl).feature.name =
      (((fl.find? fun f => sameLocation f.location p).map Feature.name).getD "") := by
  refine ⟨rfl, rfl, ?_⟩
  show GetFeatureName p fl = _
  rw [GetFeatureName_eq_find]
  rfl

/-- C3 (as stated) fails on a feature whose name is the empty string: for
the single point `(1,2)` and the feature list `[⟨"", (1,2)⟩]`, the code's
summary reports a feature count of `0`, while the number of points whose
coordinates exactly match a known feature is `1`. -/
theorem claim_C3_counterexample :
    (Recorder.onReadFalse 0 (Recorder.processAll (fun _ _ => 0)
        [Feature.mk "" ⟨1, 2⟩] (Recorder.init 0) [Point.mk 1 2])).1.featureCount = 0 ∧
    ([Point.mk 1 2].countP (matchesKnownFeature [Feature.mk "" ⟨1, 2⟩]) = 1) ∧
    (0 : Int) ≠ 1 := by
  refine ⟨?_, by decide, by decide⟩
  decide

/-- C3 (amended): for every inbound point sequence ended by
`OnReadDone(false)`, the summary's point count is the number of points,
its feature count is the number of points for which `GetFeatureName`
returns a *nonempty* name, its distance is the (truncated) sum of the
pairwise distances between consecutive points — the first point alone
contributing zero — its elapsed time is the span from construction to
finalization, and the call finishes with status `OK`. -/
theorem claim_C3_amended_recorder_summary (d : Point → Point → ℚ)
    (fl : List Feature) (t now : Int) (ps : List Point) :
    (Recorder.onReadFalse now (Recorder.processAll d fl (Recorder.init t) ps)).1.pointCount =
      (ps.length : Int) ∧
    (Recorder.onReadFalse now (Recorder.processAll d fl (Recorder.init t) ps)).1.featureCount =
      (ps.countP (matchesNamedFeature fl) : Int) ∧
    (Recorder.onReadFalse now (Recorder.processAll d fl (Recorder.init t) ps)).1.distance =
      ratToLong (routeDistance d ps) ∧
    (Recorder.onReadFalse now (Recorder.processAll d fl (Recorder.init t) ps)).1.elapsedTime =
      now - t ∧
    (Recorder.onReadFalse now (Recorder.processAll d fl (Recorder.init t) ps)).2 =
      Status.ok := by
  obtain ⟨h1, h2, h3, h4⟩ := Recorder.processAll_init d fl t ps
  exact ⟨by simp [Recorder.onReadFalse, h2], by simp [Recorder.onReadFalse, h3],
    by simp [Recorder.onReadFalse, h4], by simp [Recorder.onReadFalse, h1], rfl⟩

/-- C1 fails on the code: `to_send_notes_` is never cleared while
`notes_iterator_` is reset to its beginning on every inbound note, so
previously forwarded matches are forwarded again.  Concretely, one
session over an initially empty shared log sends `A@(0,0)`, `B@(0,0)`,
`C@(0,0)`: the log right before `C` is processed is `[A, B]`, whose
location-matching subset is `[A, B]`, yet the notes written between the
read of `C` and the next `StartRead` (positions 4.. of the trace) are
`[A, A, B]` — `A` is forwarded twice.  (The first four trace entries are
the operations up to and including `B`'s processing, during which the
forwarding was still correct: exactly `[A]`.) -/
theorem claim_C1_code_eval :
    (Chatter.run [] [ChatterEv.readDone true ⟨"A", ⟨0, 0⟩⟩,
        ChatterEv.readDone true ⟨"B", ⟨0, 0⟩⟩, ChatterEv.writeDone]).map
        (fun p => (p.1.log, p.2)) =
      some ([⟨"A", ⟨0, 0⟩⟩, ⟨"B", ⟨0, 0⟩⟩],
        [ChatterOp.startRead, ChatterOp.startRead,
         ChatterOp.startWrite ⟨"A", ⟨0, 0⟩⟩, ChatterOp.startRead]) ∧
    (Chatter.run [] [ChatterEv.readDone true ⟨"A", ⟨0, 0⟩⟩,
        ChatterEv.readDone true ⟨"B", ⟨0, 0⟩⟩, ChatterEv.writeDone,
        ChatterEv.readDone true ⟨"C", ⟨0, 0⟩⟩, ChatterEv.writeDone,
        ChatterEv.writeDone, ChatterEv.writeDone]).map
        (fun p => chatterWrites (p.2.drop 4)) =
      some [⟨"A", ⟨0, 0⟩⟩, ⟨"A", ⟨0, 0⟩⟩, ⟨"B", ⟨0, 0⟩⟩] ∧
    List.filter (fun n => sameLocation n.location ⟨0, 0⟩)
        [RouteNote.mk "A" ⟨0, 0⟩, RouteNote.mk "B" ⟨0, 0⟩] =
      [RouteNote.mk "A" ⟨0, 0⟩, RouteNote.mk "B" ⟨0, 0⟩] ∧
    ([RouteNote.mk "A" ⟨0, 0⟩, RouteNote.mk "A" ⟨0, 0⟩, RouteNote.mk "B" ⟨0, 0⟩] ≠
      [RouteNote.mk "A" ⟨0, 0⟩, RouteNote.mk "B" ⟨0, 0⟩]) := by
  refine ⟨?_, ?_, by decide, by decide⟩
  · decide
  · decide

/-- C6: the client-streaming initiator performs exactly one `AddHold`
(the very first constructor action, before the first write is armed) and
exactly one `RemoveHold` (immediately after `StartWritesDone`, the last
two trace entries); the hold count never goes below zero, ends at zero,
and — under the hold-counter completion rule — `OnDone` cannot fire at
any proper stage even with transport completion, while after the trace it
fires exactly when the transport completes. -/
theorem claim_C6_holds_balanced (pick : Nat → Point) :
    ((ClientRec.run pick 10).2.countP isAddHold = 1) ∧
    ((ClientRec.run pick 10).2.countP isRemoveHold = 1) ∧
    ((ClientRec.run pick 10).2.take 2 =
      [ClientRecOp.addHold, ClientRecOp.startWrite (pick 10)]) ∧
    ((ClientRec.run pick 10).2.drop 12 =
      [ClientRecOp.startWritesDone, ClientRecOp.removeHold]) ∧
    ((ClientRec.run pick 10).2.length = 14) ∧
    (holdCount (ClientRec.run pick 10).2 = 0) ∧
    (((List.range 15).all fun k =>
        decide (0 ≤ holdCount ((ClientRec.run pick 10).2.take k))) = true) ∧
    (((List.range 13).all fun k =>
        !onDoneAllowed true (holdCount ((ClientRec.run pick 10).2.take (k + 1)))) = true) ∧
    (onDoneAllowed true (holdCount (ClientRec.run pick 10).2) = true) ∧
    (onDoneAllowed false (holdCount (ClientRec.run pick 10).2) = false) := by
  have hmap : (ClientRec.run pick 10).2.map holdDelta =
      [1, 0, 0, 0, 0, 0, 0, 0, 0, 0, 0, 0, 0, -1] := rfl
  refine ⟨rfl, rfl, rfl, rfl, rfl, rfl, ?_, ?_, rfl, rfl⟩
  · simp only [holdCount, List.map_take, hmap]
    decide
  · simp only [onDoneAllowed, holdCount, List.map_take, hmap]
    decide

/-- C9: the synchronous facade's `Await` returns (with exactly the
status `OnDone` captured and the summary record) once the completion
flag is set by `OnDone`, and returns nothing at all — no partial copy —
while the flag is unset. -/
theorem claim_C9_await_after_onDone (st : Status) (f : FacadeState) :
    Facade.await (Facade.onDone st f) = some (st, f.stats) ∧
    (f.done = false → Facade.await f = none) := by
  constructor
  · simp [Facade.await, Facade.onDone]
  · intro h
    simp [Facade.await, h]

/-- Witness for C9: before `OnDone`, `Await` stays blocked at a concrete
facade state. -/
theorem claim_C9_witness :
    Facade.await ⟨false, Status.ok, ⟨0, 0, 0, 0⟩⟩ = none :=
  (claim_C9_await_after_onDone Status.ok ⟨false, Status.ok, ⟨0, 0, 0, 0⟩⟩).2 rfl

end RouteGuide
